import Mathlib

/-!
Verification model of `cupy/random/_bit_generator.pyx`.

The Cython module is embedded shallowly: device pointers, device ids and
execution streams are `Nat` handles; the opaque GPU kernels are recorded as
events in a host-side trace instead of being executed; the values they would
write into an output buffer are abstracted by an `oracle` parameter.  Python
integers are `Int`; the implicit Cython conversions of Python integers to the
C parameter types `uint32_t` / `uint64_t` (which raise `OverflowError` when
the value is negative or too large) are modelled explicitly, since the module
assigns Python integers to such C slots (`cdef uint64_t mask = ...`, and the
typed parameters of the extern kernels `interval_32` / `interval_64`).
-/

/-- The `RandGenerators` enum from `cupy_distributions.cuh` (lines 21-24). -/
inductive RandGenerators
  | CURAND_XOR_WOW
  | CURAND_MRG32k3a
  | CURAND_PHILOX_4x32_10
deriving DecidableEq

/-- The extern distribution kernels declared at lines 26-30 of the module. -/
inductive Kernel
  | interval_32
  | interval_64
  | beta
  | exponential
deriving DecidableEq

/-- Python exceptions the module (or a Cython numeric conversion) can raise. -/
inductive Err
  | ValueError            -- lines 127-128: high - low must be within uint64 range
  | NotImplementedError   -- line 156: Ziggurat method is not supported
  | RuntimeError          -- line 58: state allocated in a different device
  | OverflowError         -- Cython conversion of an out-of-range Python int to a C integer slot
deriving DecidableEq

/-- Host-side observable effects, recorded in program order. -/
inductive Event
  | allocState (bytes : Nat)
      -- `cupy.zeros(b_size, dtype=numpy.int8)`, line 68
  | initKernel (tag : RandGenerators) (statePtr : Nat) (seed : Nat) (count : Nat) (strm : Nat)
      -- `init_curand_generator(...)`, line 74
  | allocOutput (count : Nat) (wordBits : Nat)
      -- `ndarray(size, dtype)`, lines 130 / 148 / 158; `wordBits` is the element width
  | kernelCall (k : Kernel) (tag : RandGenerators) (statePtr : Nat) (outPtr : Nat)
      (count : Nat) (strm : Nat) (args : List Int)
      -- `func(generator, state, y_ptr, chunk.size, strm, *args)`, lines 179 / 185
  | lockAcquire
  | lockRelease
      -- acquisitions of the `threading.Lock` created at line 38 (the module never emits these)
deriving DecidableEq

/-- `_UINT32_MAX = 0xffffffff`, line 32. -/
def UINT32_MAX : Int := 0xffffffff

/-- `_UINT64_MAX = 0xffffffffffffffff`, line 33. -/
def UINT64_MAX : Int := 0xffffffffffffffff

/-- Fueled helper for Python's `int.bit_length`: number of binary digits of `n`.
Structural in the fuel so that it evaluates by kernel reduction. -/
def bit_length_aux : Nat → Nat → Nat
  | 0, _ => 0
  | fuel + 1, n => if n = 0 then 0 else bit_length_aux fuel (n / 2) + 1

/-- Python's `int.bit_length` of `diff` (line 120): the bit length of the
absolute value.  The fuel `128` makes the value exact for every `|d| < 2^128`;
beyond that the result is capped at `128`, which is still `> 64`, so the
uint64-overflow behaviour of every larger value is preserved. -/
def bit_length (d : Int) : Nat := bit_length_aux 128 d.natAbs

/-- The Python value `(1 << diff.bit_length()) - 1` computed at line 120. -/
def pymask (d : Int) : Int := 2 ^ bit_length d - 1

/-- `diff = high - low`, minus one when `endpoint` is false (lines 116-118). -/
def pydiff (low high : Int) (endpoint : Bool) : Int :=
  if endpoint then high - low else high - low - 1

/-- Cython conversion of a Python integer to a C `uint32_t` slot: raises
`OverflowError` when the value is negative or exceeds `0xffffffff`. -/
def toUInt32 (n : Int) : Except Err Int :=
  if 0 ≤ n ∧ n ≤ UINT32_MAX then Except.ok n else Except.error Err.OverflowError

/-- Cython conversion of a Python integer to a C `uint64_t` slot. -/
def toUInt64 (n : Int) : Except Err Int :=
  if 0 ≤ n ∧ n ≤ UINT64_MAX then Except.ok n else Except.error Err.OverflowError

/-- Conversion of one trailing Python-level argument to the C parameter type
of the given extern kernel: both extra parameters of `interval_32` are
`uint32_t` (`mx` and `mask`), both extra parameters of `interval_64` are
`uint64_t`; `beta` takes `double`s and `exponential` has no extra parameters,
so their conversions cannot fail here. -/
def argConv : Kernel → Int → Except Err Int
  | Kernel.interval_32, n => toUInt32 n
  | Kernel.interval_64, n => toUInt64 n
  | _, n => Except.ok n

/-- Conversion of all trailing Python-level arguments of a kernel invocation
to their C parameter types, left to right, failing on the first
out-of-range value. -/
def convertArgs (k : Kernel) : List Int → Except Err (List Int)
  | [] => Except.ok []
  | a :: rest =>
    match argConv k a, convertArgs k rest with
    | Except.ok b, Except.ok brest => Except.ok (b :: brest)
    | Except.error e, _ => Except.error e
    | _, Except.error e => Except.error e

/-- A `BitGenerator` (class at line 36) after `_cuRANDGenerator.__init__`
(lines 61-74) has run: the algorithm tag of the concrete variant, the 64-bit
working seed drawn from the seed sequence, the stream count `self._size`, the
device pointer and contents of `self._state`, the device id recorded at
construction (line 45), and the `threading.Lock` created at line 38. -/
structure BitGenerator where
  tag : RandGenerators
  workingSeed : Nat
  count : Nat
  statePtr : Nat
  stateBuf : List Int
  currentDevice : Nat
  ownsLock : Bool
deriving DecidableEq

/-- Default of the `size` parameter of `_cuRANDGenerator.__init__`, line 63. -/
def defaultStreamCount : Nat := 1024 * 100

/-- `BitGenerator.state_size` (line 54): the base class reports `0`. -/
def base_state_size : Nat := 0

/-- Modelled from the spec: `perStreamStateBytes(tag)` — `sizeof` of the
per-stream state structs `curandState` / `curandStateMRG32k3a` /
`curandStatePhilox4_32_10_t` taken at lines 93 / 99 / 106.  The structs live
in the external header `cupy_distributions.cuh`, which is not part of the
sources; the spec states only that each is a positive, algorithm-specific
constant, so the concrete cuRAND struct sizes are used here. -/
def perStreamStateBytes : RandGenerators → Nat
  | RandGenerators.CURAND_XOR_WOW => 48
  | RandGenerators.CURAND_MRG32k3a => 72
  | RandGenerators.CURAND_PHILOX_4x32_10 => 64

/-- `_cuRANDGenerator.__init__` (lines 61-74), for a variant whose
`_type_size` returns `typeSize tag`: computes `b_size = self._type_size() *
size`, allocates the zero-filled state buffer, records the construction-time
device, creates the lock, and invokes the state-initialization kernel once
with `(self.generator, state_ptr, self._seed, size, _strm)`. -/
def cuRANDGenerator_init (typeSize : RandGenerators → Nat) (tag : RandGenerators)
    (workingSeed count dev ptr strm : Nat) : BitGenerator × List Event :=
  let b_size := typeSize tag * count
  (⟨tag, workingSeed, count, ptr, List.replicate b_size 0, dev, true⟩,
   [Event.allocState b_size, Event.initKernel tag ptr workingSeed count strm])

/-- `_cuRANDGenerator.state` (lines 79-81): `_check_device` (lines 56-58)
followed by returning `self._state.data.ptr`.  `curDev` is the id of the
currently active device (`cupy.cuda.Device().id`). -/
def BitGenerator.state (g : BitGenerator) (curDev : Nat) : Except Err Nat :=
  if curDev ≠ g.currentDevice then Except.error Err.RuntimeError
  else Except.ok g.statePtr

/-- `_cuRANDGenerator.state_size` (lines 83-84): returns `self._size`. -/
def BitGenerator.state_size (g : BitGenerator) : Nat := g.count

/-- The sequential per-chunk kernel invocations of
`Generator._launch_distribution_kernel` (lines 179 and 182-185): each chunk is
a pair `(outPtr, count)`; for each one the trailing Python arguments are
converted to the kernel's C parameter types (a conversion failure raises
before the kernel runs and aborts the remaining chunks) and the invocation is
recorded. -/
def chunkCalls (k : Kernel) (tag : RandGenerators) (st strm : Nat) (args : List Int) :
    List (Nat × Nat) → Except Err Unit × List Event
  | [] => (Except.ok (), [])
  | c :: rest =>
    match convertArgs k args with
    | Except.error e => (Except.error e, [])
    | Except.ok cargs =>
      let r := chunkCalls k tag st strm args rest
      (r.1, Event.kernelCall k tag st c.1 c.2 strm cargs :: r.2)

/-- The chunking logic of `Generator._launch_distribution_kernel`
(lines 177-185), after the state pointer has been obtained: if
`bsize == 0` the kernel is invoked once on the whole buffer; otherwise
`chunks = (out.size + bsize - 1) // bsize` and iteration `i` uses the slice
`out[i*bsize:]`, whose data pointer is `outPtr + i*bsize` and whose size is
`out.size - i*bsize`. -/
def dispatch_chunks (tag : RandGenerators) (st : Nat) (bsize : Nat) (k : Kernel)
    (outPtr outSize strm : Nat) (args : List Int) : Except Err Unit × List Event :=
  if bsize = 0 then
    chunkCalls k tag st strm args [(outPtr, outSize)]
  else
    chunkCalls k tag st strm args
      ((List.range ((outSize + bsize - 1) / bsize)).map
        (fun i => (outPtr + i * bsize, outSize - i * bsize)))

/-- `Generator._launch_distribution_kernel` (lines 165-185): fetch the current
stream, obtain the state pointer through `self._bit_generator.state()` (which
performs the device check and can raise), read
`bsize = self._bit_generator.state_size()` and run the chunked dispatch. -/
def Generator.launch_distribution_kernel (g : BitGenerator) (curDev strm : Nat)
    (k : Kernel) (outPtr outSize : Nat) (args : List Int) :
    Except Err Unit × List Event :=
  match g.state curDev with
  | Except.error e => (Except.error e, [])
  | Except.ok st => dispatch_chunks g.tag st g.state_size k outPtr outSize strm args

/-- `Generator.integers` (lines 113-136).  The `Generator` class holds only
`self._bit_generator`, so the bit generator `g` is passed directly.  `oracle j`
abstracts the in-range offset the interval kernel leaves at index `j` of the
output array.  Steps, in source order: `diff = high - low` (minus one unless
`endpoint`); `cdef uint64_t mask = (1 << diff.bit_length()) - 1` (a Cython
conversion that can raise `OverflowError`); the width ladder choosing
`numpy.uint32` / `numpy.uint64` or raising `ValueError`; allocation of `y`;
the chunked dispatch of `interval_32` / `interval_64`; and `return low + y`. -/
def Generator.integers (g : BitGenerator) (curDev strm outPtr : Nat)
    (oracle : Nat → Nat) (low high : Int) (size : Nat) (endpoint : Bool) :
    Except Err (List Int) × List Event :=
  match toUInt64 (pymask (pydiff low high endpoint)) with
  | Except.error e => (Except.error e, [])
  | Except.ok mask =>
    if pydiff low high endpoint ≤ UINT32_MAX then
      ((Generator.launch_distribution_kernel g curDev strm Kernel.interval_32
          outPtr size [pydiff low high endpoint, mask]).1.map
        (fun _ => (List.range size).map (fun j => low + (oracle j : Int))),
       Event.allocOutput size 32 ::
         (Generator.launch_distribution_kernel g curDev strm Kernel.interval_32
           outPtr size [pydiff low high endpoint, mask]).2)
    else if pydiff low high endpoint ≤ UINT64_MAX then
      ((Generator.launch_distribution_kernel g curDev strm Kernel.interval_64
          outPtr size [pydiff low high endpoint, mask]).1.map
        (fun _ => (List.range size).map (fun j => low + (oracle j : Int))),
       Event.allocOutput size 64 ::
         (Generator.launch_distribution_kernel g curDev strm Kernel.interval_64
           outPtr size [pydiff low high endpoint, mask]).2)
    else
      (Except.error Err.ValueError, [])

/-- `Generator.beta` (lines 138-150): allocate `y` and dispatch the beta
kernel with the shape parameters passed through unchanged.  The `double`
parameters are abstracted as integers (nothing here inspects them). -/
def Generator.beta (g : BitGenerator) (curDev strm outPtr : Nat)
    (oracle : Nat → Int) (a b : Int) (size : Nat) :
    Except Err (List Int) × List Event :=
  ((Generator.launch_distribution_kernel g curDev strm Kernel.beta
      outPtr size [a, b]).1.map
    (fun _ => (List.range size).map oracle),
   Event.allocOutput size 64 ::
     (Generator.launch_distribution_kernel g curDev strm Kernel.beta
       outPtr size [a, b]).2)

/-- The method argument of `standard_exponential`; the source spells the
ziggurat method `'zig'` (line 155) and the default inversion method `'inv'`. -/
inductive Method
  | inv
  | zig
deriving DecidableEq

/-- An ndarray as seen by `standard_exponential`: an object identity, an
element count and abstract contents. -/
structure Buf where
  id : Nat
  size : Nat
  data : List Int
deriving DecidableEq

/-- `Generator.standard_exponential` (lines 152-163): reject the ziggurat
method before anything is allocated; otherwise allocate `y`, dispatch the
exponential kernel, and if `out` was supplied copy the fresh values into it
(`out[...] = y`) and return `out` itself (`y = out`).  `freshId`/`outPtr`
identify the freshly allocated array, `oracle` its sampled contents. -/
def Generator.standard_exponential (g : BitGenerator) (curDev strm : Nat)
    (oracle : Nat → Int) (freshId outPtr : Nat) (size : Nat)
    (method : Method) (out : Option Buf) : Except Err Buf × List Event :=
  if method = Method.zig then (Except.error Err.NotImplementedError, [])
  else
    match (Generator.launch_distribution_kernel g curDev strm Kernel.exponential
        outPtr size []).1 with
    | Except.error e =>
      (Except.error e,
       Event.allocOutput size 64 ::
         (Generator.launch_distribution_kernel g curDev strm Kernel.exponential
           outPtr size []).2)
    | Except.ok _ =>
      match out with
      | none =>
        (Except.ok ⟨freshId, size, (List.range size).map oracle⟩,
         Event.allocOutput size 64 ::
           (Generator.launch_distribution_kernel g curDev strm Kernel.exponential
             outPtr size []).2)
      | some o =>
        (Except.ok ⟨o.id, o.size, (List.range size).map oracle⟩,
         Event.allocOutput size 64 ::
           (Generator.launch_distribution_kernel g curDev strm Kernel.exponential
             outPtr size []).2)

/-- True of every event that is not a kernel invocation. -/
def noKernelCall : Event → Bool
  | Event.kernelCall _ _ _ _ _ _ _ => false
  | _ => true

/-- True of every event that is not a lock acquisition or release. -/
def lockFree : Event → Bool
  | Event.lockAcquire => false
  | Event.lockRelease => false
  | _ => true

/-- True when an interval-kernel invocation carries `m` as its rejection-mask
argument (the second trailing argument); true of every other event. -/
def maskEventOK (m : Int) : Event → Bool
  | Event.kernelCall Kernel.interval_32 _ _ _ _ _ args => args.getD 1 0 == m
  | Event.kernelCall Kernel.interval_64 _ _ _ _ _ args => args.getD 1 0 == m
  | _ => true

/-- A sample generator used in concrete runs: `XORWOW` variant, working seed
`42`, `8` streams, owning device `3`, state buffer at pointer `1000`,
constructed on execution stream `7`. -/
def g0 : BitGenerator :=
  (cuRANDGenerator_init perStreamStateBytes RandGenerators.CURAND_XOR_WOW 42 8 3 1000 7).1

/-! ### Arithmetic facts about the bit length and the mask -/

theorem UINT32_MAX_eq : UINT32_MAX = 2 ^ 32 - 1 := by norm_num [UINT32_MAX]

theorem UINT64_MAX_eq : UINT64_MAX = 2 ^ 64 - 1 := by norm_num [UINT64_MAX]

theorem bit_length_aux_le_iff :
    ∀ (fuel k n : Nat), k < fuel → (bit_length_aux fuel n ≤ k ↔ n < 2 ^ k) := by
  intro fuel
  induction fuel with
  | zero => intro k n h; exact absurd h (Nat.not_lt_zero k)
  | succ f ih =>
    intro k n hk
    by_cases hn : n = 0
    · subst hn
      simp only [bit_length_aux, if_pos rfl]
      constructor
      · intro _; exact pow_pos (by omega) k
      · intro _; exact Nat.zero_le k
    · rw [bit_length_aux, if_neg hn]
      cases k with
      | zero =>
        simp only [Nat.pow_zero]
        omega
      | succ j =>
        have hj : j < f := by omega
        have hiff := ih j (n / 2) hj
        constructor
        · intro h
          have h2 : n / 2 < 2 ^ j := hiff.mp (by omega)
          have h3 : n < 2 ^ j * 2 := by omega
          calc n < 2 ^ j * 2 := h3
            _ = 2 ^ (j + 1) := (Nat.pow_succ 2 j).symm
        · intro h
          have h2 : n < 2 ^ j * 2 := by
            calc n < 2 ^ (j + 1) := h
              _ = 2 ^ j * 2 := Nat.pow_succ 2 j
          have h3 : n / 2 < 2 ^ j := by omega
          have := hiff.mpr h3
          omega

theorem bit_length_le_iff (d : Int) (k : Nat) (hk : k < 128) :
    bit_length d ≤ k ↔ d.natAbs < 2 ^ k :=
  bit_length_aux_le_iff 128 k d.natAbs hk

theorem pymask_nonneg (d : Int) : 0 ≤ pymask d := by
  have h1 : (1 : Int) ≤ 2 ^ bit_length d := by
    exact_mod_cast Nat.one_le_two_pow (n := bit_length d)
  unfold pymask
  omega

theorem pymask_le_of_bl_le (d : Int) (h : bit_length d ≤ 64) :
    pymask d ≤ UINT64_MAX := by
  have h1 : (2 : Int) ^ bit_length d ≤ 2 ^ 64 := by
    exact_mod_cast Nat.pow_le_pow_right (by omega) h
  have h2 : (2 : Int) ^ 64 = 18446744073709551616 := by norm_num
  rw [UINT64_MAX_eq]
  unfold pymask
  omega

theorem bl_le_of_pymask_le (d : Int) (h : pymask d ≤ UINT64_MAX) :
    bit_length d ≤ 64 := by
  by_contra hgt
  have h65 : 65 ≤ bit_length d := by omega
  have h1 : (2 : Int) ^ 65 ≤ 2 ^ bit_length d := by
    exact_mod_cast Nat.pow_le_pow_right (by omega) h65
  have h2 : (2 : Int) ^ 65 = 36893488147419103232 := by norm_num
  rw [UINT64_MAX_eq] at h
  have h3 : (2 : Int) ^ 64 = 18446744073709551616 := by norm_num
  unfold pymask at h
  omega

theorem le_u64_of_bl_le (d : Int) (h : bit_length d ≤ 64) : d ≤ UINT64_MAX := by
  have h1 : d.natAbs < 2 ^ 64 := (bit_length_le_iff d 64 (by omega)).mp h
  have h2 : (d.natAbs : Int) < 2 ^ 64 := by exact_mod_cast h1
  have h3 : d ≤ (d.natAbs : Int) := Int.le_natAbs
  have h4 : (2 : Int) ^ 64 = 18446744073709551616 := by norm_num
  rw [UINT64_MAX_eq]
  omega

theorem toUInt64_ok_id (n m : Int) (h : toUInt64 n = Except.ok m) : m = n := by
  unfold toUInt64 at h
  split at h
  · exact (Except.ok.injEq _ _).mp h |>.symm
  · exact absurd h (by simp)

theorem toUInt64_pymask (d : Int) (h : bit_length d ≤ 64) :
    toUInt64 (pymask d) = Except.ok (pymask d) := by
  unfold toUInt64
  rw [if_pos ⟨pymask_nonneg d, pymask_le_of_bl_le d h⟩]

theorem toUInt64_pymask_overflow (d : Int) (h : UINT64_MAX < d) :
    toUInt64 (pymask d) = Except.error Err.OverflowError := by
  have h1 : ¬ pymask d ≤ UINT64_MAX := by
    intro hle
    have := le_u64_of_bl_le d (bl_le_of_pymask_le d hle)
    omega
  unfold toUInt64
  rw [if_neg (by intro hc; exact h1 hc.2)]

/-! ### Structure of the dispatch traces -/

theorem argConv_ok_id (k : Kernel) (a b : Int) (h : argConv k a = Except.ok b) :
    b = a := by
  cases k <;> simp only [argConv] at h <;>
    first
    | (unfold toUInt32 at h; split at h <;> simp_all)
    | (unfold toUInt64 at h; split at h <;> simp_all)
    | simp_all

theorem argConv_error (k : Kernel) (a : Int) (e : Err)
    (h : argConv k a = Except.error e) : e = Err.OverflowError := by
  cases k <;> simp only [argConv] at h <;>
    first
    | (unfold toUInt32 at h; split at h <;> simp_all)
    | (unfold toUInt64 at h; split at h <;> simp_all)
    | simp_all

theorem convertArgs_ok_id (k : Kernel) :
    ∀ (args cargs : List Int), convertArgs k args = Except.ok cargs → cargs = args
  | [], cargs, h => by
    simp only [convertArgs] at h
    exact ((Except.ok.injEq _ _).mp h).symm
  | a :: rest, cargs, h => by
    simp only [convertArgs] at h
    cases ha : argConv k a with
    | error e => rw [ha] at h; simp at h
    | ok b =>
      cases hrest : convertArgs k rest with
      | error e => rw [ha, hrest] at h; simp at h
      | ok brest =>
        rw [ha, hrest] at h
        simp only [Except.ok.injEq] at h
        rw [← h, argConv_ok_id k a b ha, convertArgs_ok_id k rest brest hrest]

theorem convertArgs_error (k : Kernel) :
    ∀ (args : List Int) (e : Err), convertArgs k args = Except.error e →
      e = Err.OverflowError
  | [], e, h => by simp [convertArgs] at h
  | a :: rest, e, h => by
    simp only [convertArgs] at h
    cases ha : argConv k a with
    | error e2 =>
      rw [ha] at h
      simp only [Except.error.injEq] at h
      rw [← h]; exact argConv_error k a e2 ha
    | ok b =>
      cases hrest : convertArgs k rest with
      | error e2 =>
        rw [ha, hrest] at h
        simp only [Except.error.injEq] at h
        rw [← h]; exact convertArgs_error k rest e2 hrest
      | ok brest => rw [ha, hrest] at h; simp at h

theorem chunkCalls_ok (k : Kernel) (tag : RandGenerators) (st strm : Nat)
    (args cargs : List Int) (h : convertArgs k args = Except.ok cargs) :
    ∀ l : List (Nat × Nat), chunkCalls k tag st strm args l =
      (Except.ok (), l.map (fun c => Event.kernelCall k tag st c.1 c.2 strm cargs))
  | [] => rfl
  | c :: rest => by
    simp only [chunkCalls, h, chunkCalls_ok k tag st strm args cargs h rest, List.map]

theorem chunkCalls_fst (k : Kernel) (tag : RandGenerators) (st strm : Nat)
    (args : List Int) :
    ∀ l : List (Nat × Nat), (chunkCalls k tag st strm args l).1 = Except.ok () ∨
      (chunkCalls k tag st strm args l).1 = Except.error Err.OverflowError
  | [] => Or.inl rfl
  | c :: rest => by
    simp only [chunkCalls]
    cases ha : convertArgs k args with
    | error e => right; simp [convertArgs_error k args e ha]
    | ok cargs => simpa using chunkCalls_fst k tag st strm args rest

theorem chunkCalls_events (k : Kernel) (tag : RandGenerators) (st strm : Nat)
    (args : List Int) :
    ∀ (l : List (Nat × Nat)) (e : Event), e ∈ (chunkCalls k tag st strm args l).2 →
      ∃ (c : Nat × Nat) (cargs : List Int), convertArgs k args = Except.ok cargs ∧
        e = Event.kernelCall k tag st c.1 c.2 strm cargs
  | [], e, h => absurd h (List.not_mem_nil e)
  | c :: rest, e, h => by
    rw [chunkCalls] at h
    cases ha : convertArgs k args with
    | error e2 => rw [ha] at h; exact absurd h (List.not_mem_nil e)
    | ok cargs =>
      rw [ha] at h
      simp only [List.mem_cons] at h
      cases h with
      | inl he => exact ⟨c, cargs, rfl, he⟩
      | inr he =>
        obtain ⟨c2, cargs2, hc2, he2⟩ := chunkCalls_events k tag st strm args rest e he
        exact ⟨c2, cargs2, by rw [← ha]; exact hc2, he2⟩

theorem dispatch_chunks_events (tag : RandGenerators) (st bsize : Nat) (k : Kernel)
    (outPtr outSize strm : Nat) (args : List Int) (e : Event)
    (h : e ∈ (dispatch_chunks tag st bsize k outPtr outSize strm args).2) :
    ∃ (c : Nat × Nat) (cargs : List Int), convertArgs k args = Except.ok cargs ∧
      e = Event.kernelCall k tag st c.1 c.2 strm cargs := by
  rw [dispatch_chunks] at h
  split at h
  · exact chunkCalls_events k tag st strm args _ e h
  · exact chunkCalls_events k tag st strm args _ e h

theorem dispatch_chunks_fst (tag : RandGenerators) (st bsize : Nat) (k : Kernel)
    (outPtr outSize strm : Nat) (args : List Int) :
    (dispatch_chunks tag st bsize k outPtr outSize strm args).1 = Except.ok () ∨
      (dispatch_chunks tag st bsize k outPtr outSize strm args).1 =
        Except.error Err.OverflowError := by
  rw [dispatch_chunks]
  split
  · exact chunkCalls_fst k tag st strm args _
  · exact chunkCalls_fst k tag st strm args _

theorem state_mismatch (g : BitGenerator) (curDev : Nat)
    (h : curDev ≠ g.currentDevice) :
    g.state curDev = Except.error Err.RuntimeError := by
  simp [BitGenerator.state, h]

theorem state_match (g : BitGenerator) : g.state g.currentDevice = Except.ok g.statePtr := by
  simp [BitGenerator.state]

theorem launch_mismatch (g : BitGenerator) (curDev strm : Nat) (k : Kernel)
    (outPtr outSize : Nat) (args : List Int) (h : curDev ≠ g.currentDevice) :
    Generator.launch_distribution_kernel g curDev strm k outPtr outSize args =
      (Except.error Err.RuntimeError, []) := by
  rw [Generator.launch_distribution_kernel, state_mismatch g curDev h]

theorem launch_events (g : BitGenerator) (curDev strm : Nat) (k : Kernel)
    (outPtr outSize : Nat) (args : List Int) (e : Event)
    (h : e ∈ (Generator.launch_distribution_kernel g curDev strm k outPtr outSize args).2) :
    ∃ (st : Nat) (c : Nat × Nat) (cargs : List Int), convertArgs k args = Except.ok cargs ∧
      e = Event.kernelCall k g.tag st c.1 c.2 strm cargs := by
  rw [Generator.launch_distribution_kernel] at h
  cases hs : g.state curDev with
  | error e2 => rw [hs] at h; exact absurd h (List.not_mem_nil e)
  | ok st =>
    rw [hs] at h
    obtain ⟨c, cargs, hc, he⟩ := dispatch_chunks_events g.tag st g.state_size k
      outPtr outSize strm args e h
    exact ⟨st, c, cargs, hc, he⟩

theorem launch_no_valueerror (g : BitGenerator) (curDev strm : Nat) (k : Kernel)
    (outPtr outSize : Nat) (args : List Int) :
    (Generator.launch_distribution_kernel g curDev strm k outPtr outSize args).1 ≠
      Except.error Err.ValueError := by
  rw [Generator.launch_distribution_kernel]
  cases hs : g.state curDev with
  | error e2 =>
    have : e2 = Err.RuntimeError := by
      unfold BitGenerator.state at hs; split at hs <;> simp_all
    simp [this]
  | ok st =>
    cases dispatch_chunks_fst g.tag st g.state_size k outPtr outSize strm args with
    | inl h => simp [h]
    | inr h => simp [h]

theorem except_map_ne {α β : Type} (f : α → β) (r : Except Err α) (e : Err)
    (h : r ≠ Except.error e) : r.map f ≠ Except.error e := by
  cases r <;> simp_all [Except.map]

/-! ### Further dispatch lemmas used by the claims -/

theorem dispatch_chunks_ok_fst (tag : RandGenerators) (st bsize : Nat) (k : Kernel)
    (outPtr outSize strm : Nat) (args cargs : List Int)
    (h : convertArgs k args = Except.ok cargs) :
    (dispatch_chunks tag st bsize k outPtr outSize strm args).1 = Except.ok () := by
  rw [dispatch_chunks]
  split <;> rw [chunkCalls_ok k tag st strm args cargs h]

theorem launch_exponential_ok (g : BitGenerator) (strm outPtr outSize : Nat) :
    (Generator.launch_distribution_kernel g g.currentDevice strm Kernel.exponential
      outPtr outSize []).1 = Except.ok () := by
  rw [Generator.launch_distribution_kernel, state_match]
  exact dispatch_chunks_ok_fst g.tag g.statePtr g.state_size Kernel.exponential
    outPtr outSize strm [] [] rfl

/-! ### The claims -/

/-- Claim C1: the spec requires invocation `i` of the dispatcher to cover the
chunk at offset `i*S` with size `min(S, N - i*S)`, tiling `[0, N)` without
overlap.  Evaluating the dispatch loop of
`Generator._launch_distribution_kernel` at stream count `S = 4` and output
size `N = 10` (state pointer 500, output pointer 100, stream 7, exponential
kernel): it does issue `ceil(10/4) = 3` invocations, in index order, with the
same state pointer and stream, at element offsets 0, 4, 8 — but the chunk
sizes are the unclipped tail sizes 10, 6, 2 (the slice `out[i*bsize:]` is
never cut at `(i+1)*bsize`), not `min(4, 10 - 4*i) = 4, 4, 2`, so the chunk
ranges overlap instead of partitioning `[0, 10)`. -/
theorem C1_dispatch_tail_chunks :
    dispatch_chunks RandGenerators.CURAND_XOR_WOW 500 4 Kernel.exponential 100 10 7 [] =
      (Except.ok (),
       [Event.kernelCall Kernel.exponential RandGenerators.CURAND_XOR_WOW 500 100 10 7 [],
        Event.kernelCall Kernel.exponential RandGenerators.CURAND_XOR_WOW 500 104 6 7 [],
        Event.kernelCall Kernel.exponential RandGenerators.CURAND_XOR_WOW 500 108 2 7 []]) ∧
    (10 : Nat) ≠ min 4 (10 - 0 * 4) :=
  ⟨by rfl, by decide⟩

/-- Claim C5: requesting the ziggurat method (spelled `'zig'` at line 155 of
the source) makes `standard_exponential` fail with `NotImplementedError`
before the output buffer is allocated and before any kernel is invoked: for
every generator, size and destination the result is the error together with
an empty event trace. -/
theorem C5_ziggurat_rejected (g : BitGenerator) (curDev strm : Nat)
    (oracle : Nat → Int) (freshId outPtr size : Nat) (out : Option Buf) :
    Generator.standard_exponential g curDev strm oracle freshId outPtr size
      Method.zig out = (Except.error Err.NotImplementedError, []) := rfl

/-- Claim C7: for every algorithm tag the per-stream state size is positive;
construction allocates a zero-initialized state buffer of exactly
`perStreamStateBytes(tag) * streamCount` bytes and invokes the
state-initialization kernel exactly once, with the algorithm tag, the buffer
pointer, the 64-bit working seed, the stream count and the current execution
stream; the default stream count is `1024 * 100 = 102400`.  (The buffer is
never resized: no operation of the module ever produces a new state buffer
after construction.) -/
theorem C7_state_allocation (tag : RandGenerators) (seed count dev ptr strm : Nat) :
    0 < perStreamStateBytes tag ∧
    (cuRANDGenerator_init perStreamStateBytes tag seed count dev ptr strm).1.stateBuf =
      List.replicate (perStreamStateBytes tag * count) 0 ∧
    (cuRANDGenerator_init perStreamStateBytes tag seed count dev ptr strm).1.stateBuf.length =
      perStreamStateBytes tag * count ∧
    (cuRANDGenerator_init perStreamStateBytes tag seed count dev ptr strm).2 =
      [Event.allocState (perStreamStateBytes tag * count),
       Event.initKernel tag ptr seed count strm] ∧
    defaultStreamCount = 102400 := by
  refine ⟨?_, rfl, List.length_replicate _ _, rfl, rfl⟩
  cases tag <;> decide

/-- Claim C8: when the generator reports stream count `0` (the value the
`BitGenerator` base class returns from `state_size`, reserved as the
unbounded/stateless sentinel), the dispatcher invokes the kernel exactly once
with the full output buffer; the `(N + S - 1) // S` chunk-count formula sits
in the other branch and is never evaluated. -/
theorem C8_zero_stream_single_launch (tag : RandGenerators) (st : Nat) (k : Kernel)
    (outPtr outSize strm : Nat) (args cargs : List Int)
    (h : convertArgs k args = Except.ok cargs) :
    dispatch_chunks tag st base_state_size k outPtr outSize strm args =
      (Except.ok (), [Event.kernelCall k tag st outPtr outSize strm cargs]) := by
  rw [dispatch_chunks]
  rw [if_pos (show base_state_size = 0 from rfl), chunkCalls_ok k tag st strm args cargs h]
  rfl

/-- Witness for C8: the exponential kernel dispatched through the sentinel
path issues exactly one invocation covering the whole buffer. -/
theorem C8_zero_stream_single_launch_witness :
    convertArgs Kernel.exponential [] = Except.ok [] ∧
    dispatch_chunks RandGenerators.CURAND_XOR_WOW 500 base_state_size Kernel.exponential
        100 10 7 [] =
      (Except.ok (),
       [Event.kernelCall Kernel.exponential RandGenerators.CURAND_XOR_WOW 500 100 10 7 []]) :=
  ⟨rfl, C8_zero_stream_single_launch RandGenerators.CURAND_XOR_WOW 500 Kernel.exponential
    100 10 7 [] [] rfl⟩

/-- Claim C9 counterexample: the claim asserts the per-generator lock is held
for the duration of state initialization and across every dispatch, yet the
construction trace of a concrete `XORWOW` generator and the trace of a
concrete dispatch against it contain no lock acquisition at all — the lock
created at line 38 is never taken anywhere in the module. -/
theorem C9_lock_counterexample :
    Event.lockAcquire ∉ (cuRANDGenerator_init perStreamStateBytes
      RandGenerators.CURAND_XOR_WOW 42 8 3 1000 7).2 ∧
    Event.lockAcquire ∉ (Generator.launch_distribution_kernel g0 3 7 Kernel.exponential
      100 10 []).2 := by
  exact ⟨by decide, by decide⟩

/-- Claim C9, amended: every `BitGenerator` owns a mutual-exclusion lock,
created at construction — but the module itself never acquires it: neither
state initialization nor any dispatch emits a lock acquisition or release;
serializing concurrent sampling calls is left entirely to callers. -/
theorem C9_lock_owned_never_acquired (typeSize : RandGenerators → Nat)
    (tag : RandGenerators) (seed count dev ptr strm : Nat)
    (g : BitGenerator) (curDev strm2 : Nat) (k : Kernel) (outPtr outSize : Nat)
    (args : List Int) :
    (cuRANDGenerator_init typeSize tag seed count dev ptr strm).1.ownsLock = true ∧
    ((cuRANDGenerator_init typeSize tag seed count dev ptr strm).2.all lockFree) = true ∧
    ((Generator.launch_distribution_kernel g curDev strm2 k outPtr outSize args).2.all
      lockFree) = true := by
  refine ⟨rfl, rfl, ?_⟩
  rw [List.all_eq_true]
  intro e he
  obtain ⟨st, c, cargs, _, hev⟩ := launch_events g curDev strm2 k outPtr outSize args e he
  rw [hev]
  rfl

theorem integers_fst_no_valueerror (g : BitGenerator) (curDev strm outPtr : Nat)
    (oracle : Nat → Nat) (low high : Int) (size : Nat) (endpoint : Bool) :
    (Generator.integers g curDev strm outPtr oracle low high size endpoint).1 ≠
      Except.error Err.ValueError := by
  unfold Generator.integers
  cases htu : toUInt64 (pymask (pydiff low high endpoint)) with
  | error e =>
    have he : e = Err.OverflowError := by
      unfold toUInt64 at htu; split at htu <;> simp_all
    simp [he]
  | ok mask =>
    simp only
    split
    · exact except_map_ne _ _ _ (launch_no_valueerror g curDev strm Kernel.interval_32
        outPtr size [pydiff low high endpoint, mask])
    · split
      · exact except_map_ne _ _ _ (launch_no_valueerror g curDev strm Kernel.interval_64
          outPtr size [pydiff low high endpoint, mask])
      · exfalso
        rename_i h32 h64
        push_neg at h64
        rw [toUInt64_pymask_overflow _ h64] at htu
        exact absurd htu (by simp)

/-- Claim C2: the width-selection ladder of `integers`.  The two in-range
examples behave as claimed: `integers(0, 2^31, 5)` takes the 32-bit branch
(32-bit output array, `interval_32` kernel) and `integers(0, 2^40, 5)` takes
the 64-bit branch, each returning `low + sampledOffsets` elementwise.  But
`integers(0, 2^65, 5)` fails with `OverflowError` raised while assigning
`(1 << diff.bit_length()) - 1` to the `cdef uint64_t mask` slot at line 120 —
which executes before the width test — not with the module's own
`ValueError` range check; indeed no call whatsoever can reach that
`ValueError` branch (first conjunct), so the code's intended range error is
dead. -/
theorem C2_width_selection :
    (∀ (g : BitGenerator) (curDev strm outPtr : Nat) (oracle : Nat → Nat)
        (low high : Int) (size : Nat) (endpoint : Bool),
      (Generator.integers g curDev strm outPtr oracle low high size endpoint).1 ≠
        Except.error Err.ValueError) ∧
    Generator.integers g0 3 7 100 (fun j => j) 0 (2 ^ 31) 5 false =
      (Except.ok [0, 1, 2, 3, 4],
       [Event.allocOutput 5 32,
        Event.kernelCall Kernel.interval_32 RandGenerators.CURAND_XOR_WOW 1000 100 5 7
          [2147483647, 2147483647]]) ∧
    Generator.integers g0 3 7 100 (fun j => j) 0 (2 ^ 40) 5 false =
      (Except.ok [0, 1, 2, 3, 4],
       [Event.allocOutput 5 64,
        Event.kernelCall Kernel.interval_64 RandGenerators.CURAND_XOR_WOW 1000 100 5 7
          [1099511627775, 1099511627775]]) ∧
    Generator.integers g0 3 7 100 (fun j => j) 0 (2 ^ 65) 5 false =
      (Except.error Err.OverflowError, []) := by
  refine ⟨?_, by rfl, by rfl, by rfl⟩
  intro g curDev strm outPtr oracle low high size endpoint
  exact integers_fst_no_valueerror g curDev strm outPtr oracle low high size endpoint

/-- Claim C3: in every `integers` call, every interval-kernel invocation that
is actually issued carries as its rejection mask exactly
`(1 << bitLength(diff)) - 1`, the smallest all-ones mask covering `diff`
(first conjunct, stated over the full event trace); and concretely for
`low = 0, high = 10`: `endpoint = false` gives `diff = 9`, `mask = 15`, while
`endpoint = true` gives `diff = 10` and the same `mask = 15`. -/
theorem C3_rejection_mask :
    (∀ (g : BitGenerator) (curDev strm outPtr : Nat) (oracle : Nat → Nat)
        (low high : Int) (size : Nat) (endpoint : Bool),
      ((Generator.integers g curDev strm outPtr oracle low high size endpoint).2.all
        (maskEventOK (pymask (pydiff low high endpoint)))) = true) ∧
    pydiff 0 10 false = 9 ∧ pymask 9 = 15 ∧
    pydiff 0 10 true = 10 ∧ pymask 10 = 15 := by
  refine ⟨?_, by decide, by decide, by decide, by decide⟩
  intro g curDev strm outPtr oracle low high size endpoint
  rw [List.all_eq_true]
  intro e he
  unfold Generator.integers at he
  cases htu : toUInt64 (pymask (pydiff low high endpoint)) with
  | error e2 => rw [htu] at he; simp at he
  | ok mask =>
    have hmask : mask = pymask (pydiff low high endpoint) := toUInt64_ok_id _ _ htu
    rw [htu] at he
    simp only at he
    split at he
    · simp only [List.mem_cons] at he
      cases he with
      | inl h => rw [h]; rfl
      | inr h =>
        obtain ⟨st, c, cargs, hconv, hev⟩ := launch_events g curDev strm Kernel.interval_32
          outPtr size [pydiff low high endpoint, mask] e h
        have hid : cargs = [pydiff low high endpoint, mask] :=
          convertArgs_ok_id Kernel.interval_32 _ _ hconv
        rw [hev, hid, hmask]
        simp [maskEventOK]
    · split at he
      · simp only [List.mem_cons] at he
        cases he with
        | inl h => rw [h]; rfl
        | inr h =>
          obtain ⟨st, c, cargs, hconv, hev⟩ := launch_events g curDev strm Kernel.interval_64
            outPtr size [pydiff low high endpoint, mask] e h
          have hid : cargs = [pydiff low high endpoint, mask] :=
            convertArgs_ok_id Kernel.interval_64 _ _ hconv
          rw [hev, hid, hmask]
          simp [maskEventOK]
      · simp at he

/-- Claim C4 counterexample: with the active device `9` differing from the
generator's owning device `3`, `integers` does fail with the cross-device
error — but its event trace already contains the allocation of the output
array (line 130 runs before the device check inside `state()`), refuting the
claim that the failure happens without allocating the output buffer. -/
theorem C4_alloc_before_device_check :
    (Generator.integers g0 9 7 100 (fun j => j) 0 10 5 false).1 =
      Except.error Err.RuntimeError ∧
    (Generator.integers g0 9 7 100 (fun j => j) 0 10 5 false).2 =
      [Event.allocOutput 5 32] :=
  ⟨rfl, rfl⟩

/-- Claim C4, amended: when the active device differs from the device recorded
at construction, every state-dependent sampling operation fails with the
cross-device error before any state pointer is returned and before any kernel
is invoked (the traces contain no kernel call) — but after the output buffer
has been allocated; when the devices match, the check is a no-op and the state
pointer is returned.  (The `bit_length` bound keeps the line-120 mask
conversion, which runs before the device check, from failing first.) -/
theorem C4_device_guard_amended (g : BitGenerator) (curDev strm outPtr : Nat)
    (oracle : Nat → Nat) (oracleE : Nat → Int) (low high : Int) (size : Nat)
    (endpoint : Bool) (freshId : Nat) (dest : Option Buf)
    (hdev : curDev ≠ g.currentDevice)
    (hbl : bit_length (pydiff low high endpoint) ≤ 64) :
    g.state curDev = Except.error Err.RuntimeError ∧
    g.state g.currentDevice = Except.ok g.statePtr ∧
    (Generator.integers g curDev strm outPtr oracle low high size endpoint).1 =
      Except.error Err.RuntimeError ∧
    ((Generator.integers g curDev strm outPtr oracle low high size endpoint).2.all
      noKernelCall) = true ∧
    (Generator.standard_exponential g curDev strm oracleE freshId outPtr size
      Method.inv dest).1 = Except.error Err.RuntimeError ∧
    ((Generator.standard_exponential g curDev strm oracleE freshId outPtr size
      Method.inv dest).2.all noKernelCall) = true := by
  have hint : Generator.integers g curDev strm outPtr oracle low high size endpoint =
      (Except.error Err.RuntimeError, [Event.allocOutput size 32]) ∨
      Generator.integers g curDev strm outPtr oracle low high size endpoint =
      (Except.error Err.RuntimeError, [Event.allocOutput size 64]) := by
    unfold Generator.integers
    rw [toUInt64_pymask _ hbl]
    simp only
    split
    · left
      rw [launch_mismatch g curDev strm Kernel.interval_32 outPtr size _ hdev]
      rfl
    · split
      · right
        rw [launch_mismatch g curDev strm Kernel.interval_64 outPtr size _ hdev]
        rfl
      · rename_i h32 h64
        exact absurd (le_u64_of_bl_le _ hbl) h64
  have hexp : Generator.standard_exponential g curDev strm oracleE freshId outPtr size
      Method.inv dest = (Except.error Err.RuntimeError, [Event.allocOutput size 64]) := by
    unfold Generator.standard_exponential
    rw [if_neg (by decide)]
    rw [launch_mismatch g curDev strm Kernel.exponential outPtr size [] hdev]
  refine ⟨state_mismatch g curDev hdev, state_match g, ?_, ?_, ?_, ?_⟩
  · cases hint with
    | inl h => rw [h]
    | inr h => rw [h]
  · cases hint with
    | inl h => rw [h]; rfl
    | inr h => rw [h]; rfl
  · rw [hexp]
  · rw [hexp]; rfl

/-- Witness for the amended C4 at a concrete mismatched device. -/
theorem C4_device_guard_amended_witness :
    g0.state 9 = Except.error Err.RuntimeError ∧
    g0.state g0.currentDevice = Except.ok g0.statePtr ∧
    (Generator.integers g0 9 7 100 (fun j => j) 0 10 5 false).1 =
      Except.error Err.RuntimeError ∧
    ((Generator.integers g0 9 7 100 (fun j => j) 0 10 5 false).2.all
      noKernelCall) = true ∧
    (Generator.standard_exponential g0 9 7 (fun j => (j : Int)) 55 100 5
      Method.inv none).1 = Except.error Err.RuntimeError ∧
    ((Generator.standard_exponential g0 9 7 (fun j => (j : Int)) 55 100 5
      Method.inv none).2.all noKernelCall) = true :=
  C4_device_guard_amended g0 9 7 100 (fun j => j) (fun j => (j : Int)) 0 10 5 false 55 none
    (by decide) (by decide)

/-- Claim C6: when a destination buffer is supplied to `standard_exponential`
(the inversion method, matching device), the returned buffer has the
destination's identity — not the fresh buffer's — and carries the freshly
sampled values (`out[...] = y; y = out; return y`, lines 160-163); with no
destination, the fresh buffer identity is returned. -/
theorem C6_destination_identity (g : BitGenerator) (strm : Nat) (oracle : Nat → Int)
    (freshId outPtr size : Nat) (o : Buf) :
    (Generator.standard_exponential g g.currentDevice strm oracle freshId outPtr size
        Method.inv (some o)).1 =
      Except.ok ⟨o.id, o.size, (List.range size).map oracle⟩ ∧
    (Generator.standard_exponential g g.currentDevice strm oracle freshId outPtr size
        Method.inv none).1 =
      Except.ok ⟨freshId, size, (List.range size).map oracle⟩ := by
  have hl := launch_exponential_ok g strm outPtr size
  constructor <;>
    · unfold Generator.standard_exponential
      rw [if_neg (by decide), hl]

theorem chunkCalls_neg_interval32 (tag : RandGenerators) (st strm : Nat)
    (d m : Int) (hd : d < 0) :
    ∀ l : List (Nat × Nat), l ≠ [] →
      chunkCalls Kernel.interval_32 tag st strm [d, m] l =
        (Except.error Err.OverflowError, []) := by
  have hconv : convertArgs Kernel.interval_32 [d, m] = Except.error Err.OverflowError := by
    have h32 : toUInt32 d = Except.error Err.OverflowError := by
      unfold toUInt32
      rw [if_neg (by intro hc; omega)]
    simp only [convertArgs, argConv, h32]
  intro l hl
  cases l with
  | nil => exact absurd rfl hl
  | cons c rest => rw [chunkCalls, hconv]

/-- Claim C10 counterexample: the claim asserts that a call with
`high = low` (`endpoint` false) raises no error and dispatches the 32-bit
interval kernel with the negative range width.  Evaluating
`integers(5, 5, 4)` on a matching device: the call *does* raise — with
`OverflowError`, when the kernel wrapper converts the negative `diff` to its
`uint32_t` parameter — and the trace shows the output array was allocated but
no kernel invocation was ever recorded. -/
theorem C10_negative_diff_overflows :
    Generator.integers g0 3 7 100 (fun j => j) 5 5 4 false =
      (Except.error Err.OverflowError, [Event.allocOutput 4 32]) := rfl

/-- Claim C10, amended: `integers` performs no `high > low` validation at the
public interface.  For `high ≤ low` with `endpoint` false, the negative
`diff` passes the 32-bit width test (it is `≤ _UINT32_MAX`), the mask is
derived from the negative value's bit length and fits the `uint64_t` slot,
the 32-bit output array is allocated and the 32-bit dispatch is entered; the
call then fails with `OverflowError` at the first kernel invocation, when the
negative range width is converted to the kernel's `uint32_t` parameter — so
the rejection happens at the C conversion boundary, never as an explicit
bound check.  (The second hypothesis keeps the line-120 mask conversion in
range; `0 < size` makes the loop attempt at least one invocation.) -/
theorem C10_no_bound_validation (g : BitGenerator) (strm outPtr : Nat)
    (oracle : Nat → Nat) (low high : Int) (size : Nat)
    (h1 : high ≤ low) (h2 : low - high ≤ 2 ^ 64 - 2) (h3 : 0 < size) :
    pydiff low high false < 0 ∧
    pydiff low high false ≤ UINT32_MAX ∧
    toUInt64 (pymask (pydiff low high false)) =
      Except.ok (pymask (pydiff low high false)) ∧
    Generator.integers g g.currentDevice strm outPtr oracle low high size false =
      (Except.error Err.OverflowError, [Event.allocOutput size 32]) := by
  have hdeq : pydiff low high false = high - low - 1 := rfl
  have hd : pydiff low high false < 0 := by rw [hdeq]; omega
  have hpow : (2 : Int) ^ 64 = 18446744073709551616 := by norm_num
  rw [hpow] at h2
  have habs : (pydiff low high false).natAbs < 2 ^ 64 := by
    have hpn : (2 : Nat) ^ 64 = 18446744073709551616 := by norm_num
    rw [hdeq, hpn]
    omega
  have hbl : bit_length (pydiff low high false) ≤ 64 :=
    (bit_length_le_iff _ 64 (by omega)).mpr habs
  have htu := toUInt64_pymask _ hbl
  have h32 : pydiff low high false ≤ UINT32_MAX := by
    have : (0 : Int) ≤ UINT32_MAX := by rw [UINT32_MAX_eq]; norm_num
    omega
  refine ⟨hd, h32, htu, ?_⟩
  have hlaunch : Generator.launch_distribution_kernel g g.currentDevice strm
      Kernel.interval_32 outPtr size
      [pydiff low high false, pymask (pydiff low high false)] =
      (Except.error Err.OverflowError, []) := by
    simp only [Generator.launch_distribution_kernel, state_match]
    rw [dispatch_chunks]
    split
    · exact chunkCalls_neg_interval32 g.tag g.statePtr strm _ _ hd _ (by simp)
    · refine chunkCalls_neg_interval32 g.tag g.statePtr strm _ _ hd _ ?_
      rename_i hbz
      have hbpos : 0 < g.state_size := Nat.pos_of_ne_zero hbz
      have hchunks : 0 < (size + g.state_size - 1) / g.state_size :=
        (Nat.one_le_div_iff hbpos).mpr (by omega)
      simp only [ne_eq, List.map_eq_nil_iff, List.range_eq_nil]
      omega
  unfold Generator.integers
  rw [htu]
  simp only [if_pos h32, hlaunch]
  rfl

/-- Witness for the amended C10 at `low = high = 5`, `size = 4`. -/
theorem C10_no_bound_validation_witness :
    pydiff 5 5 false < 0 ∧
    pydiff 5 5 false ≤ UINT32_MAX ∧
    toUInt64 (pymask (pydiff 5 5 false)) = Except.ok (pymask (pydiff 5 5 false)) ∧
    Generator.integers g0 g0.currentDevice 7 100 (fun j => j) 5 5 4 false =
      (Except.error Err.OverflowError, [Event.allocOutput 4 32]) :=
  C10_no_bound_validation g0 7 100 (fun j => j) 5 5 4 (by decide) (by decide) (by decide)
